import Mathlib

/-!
Verification of the ZMs mini-spreadsheet engine: a shallow embedding of
`src/engine/FormulaParser.ts`, `src/engine/DependencyGraph.ts` and
`src/engine/SpreadsheetEngine.ts`, followed by theorems about the
claims of the specification.

Modelling conventions:
* JavaScript `string | number` values are `JSValue` (numbers as rationals).
* JavaScript `Map`/objects with insertion order are association lists;
  `Set` is a duplicate-free list in insertion order.
* Mutating methods become functions returning the updated structure.
* Recursions that the source runs on a visited-set guard are given
  explicit fuel large enough that it is never exhausted on the inputs
  the source can reach.
* JavaScript truthiness of an optional string (`if (x)`) is
  `x = some s` with `s` non-empty.
-/

namespace ZMs

/-- An exact rational number in lowest terms with positive denominator,
modelling the finite JavaScript numbers the engine manipulates.  All
operations normalize, so structural equality is value equality. -/
structure Q where
  num : Int
  den : Nat
deriving DecidableEq, Repr

/-- Build a normalized rational from a fraction of integers (the
denominator-zero guard is unreachable at every call site). -/
def Q.mk' (n d : Int) : Q :=
  if d = 0 then { num := 0, den := 1 }
  else
    let na := n.natAbs
    let da := d.natAbs
    let g := Nat.gcd na da
    let neg : Bool := decide (n < 0) != decide (d < 0)
    { num := if neg then -((na / g : Nat) : Int) else ((na / g : Nat) : Int),
      den := da / g }

instance : OfNat Q n := ⟨{ num := Int.ofNat n, den := 1 }⟩

/-- The integer `n` as a rational. -/
def Q.ofInt (n : Int) : Q := { num := n, den := 1 }

/-- The natural number `n` as a rational. -/
def Q.ofNat (n : Nat) : Q := { num := Int.ofNat n, den := 1 }

instance : Add Q := ⟨fun a b => Q.mk' (a.num * b.den + b.num * a.den) ((a.den : Int) * b.den)⟩

instance : Sub Q := ⟨fun a b => Q.mk' (a.num * b.den - b.num * a.den) ((a.den : Int) * b.den)⟩

instance : Mul Q := ⟨fun a b => Q.mk' (a.num * b.num) ((a.den : Int) * b.den)⟩

instance : Div Q := ⟨fun a b => Q.mk' (a.num * b.den) ((a.den : Int) * b.num)⟩

instance : Neg Q := ⟨fun a => { num := -a.num, den := a.den }⟩

/-- Comparison of rationals by cross-multiplication. -/
def Q.blt (a b : Q) : Bool := a.num * b.den < b.num * a.den

instance : LT Q := ⟨fun a b => Q.blt a b = true⟩

instance (a b : Q) : Decidable (a < b) :=
  inferInstanceAs (Decidable (Q.blt a b = true))

/-- `Math.min` on two numbers. -/
def Q.min2 (a b : Q) : Q := if Q.blt b a then b else a

/-- `Math.max` on two numbers. -/
def Q.max2 (a b : Q) : Q := if Q.blt a b then b else a

/-- Floor of a rational (the denominator is positive by construction). -/
def Q.floor (a : Q) : Int := a.num.fdiv (a.den : Int)

/-- A JavaScript `string | number` value; numbers are modelled as rationals. -/
inductive JSValue where
  | str (s : String)
  | num (q : Q)
deriving DecidableEq, Repr

/-- Character class `[A-Z]` used by the parser's regular expressions. -/
def isUpperAZ (c : Char) : Bool := 'A' ≤ c && c ≤ 'Z'

/-- Character class `[0-9]`. -/
def isDigit09 (c : Char) : Bool := '0' ≤ c && c ≤ '9'

/-- Character class `[A-Za-z]` (the function-name regex carries the `i` flag). -/
def isAlphaAny (c : Char) : Bool := ('A' ≤ c && c ≤ 'Z') || ('a' ≤ c && c ≤ 'z')

/-- JavaScript regex whitespace as it can occur in formula text. -/
def isJsSpace (c : Char) : Bool := c = ' ' || c = '\t' || c = '\n' || c = '\r'

/-- Digits of a list of characters interpreted as a natural number. -/
def digitsToNat (ds : List Char) : Nat :=
  ds.foldl (fun n c => n * 10 + (c.toNat - 48)) 0

/-- `String.prototype.startsWith`, computed on the character lists. -/
def strStartsWith (s p : String) : Bool :=
  p.data.isPrefixOf s.data

/-- `String.prototype.trim`, computed on the character lists. -/
def trimStr (s : String) : String :=
  String.mk (((s.data.dropWhile isJsSpace).reverse.dropWhile isJsSpace).reverse)

/-- `toUpperCase` for one character. -/
def charUpper (c : Char) : Char :=
  if 'a' ≤ c && c ≤ 'z' then Char.ofNat (c.toNat - 32) else c

/-- `String.prototype.toUpperCase`, computed on the character lists. -/
def strUpper (s : String) : String :=
  String.mk (s.data.map charUpper)

/-- One match of `CELL_REGEX = /([A-Z])([0-9]+)/g`: matched text and index. -/
structure CellMatch where
  whole : String
  idx : Nat
deriving DecidableEq, Repr

/-- Scanner for `CELL_REGEX` with `matchAll` semantics: leftmost matches,
resuming after each match.  Fuel bounds the recursion; one unit per step. -/
def scanCells : Nat → List Char → Nat → List CellMatch
  | 0, _, _ => []
  | _ + 1, [], _ => []
  | fuel + 1, c :: rest, i =>
    if isUpperAZ c then
      let ds := rest.takeWhile isDigit09
      if ds.isEmpty then scanCells fuel rest (i + 1)
      else
        { whole := String.mk (c :: ds), idx := i } ::
          scanCells fuel (rest.drop ds.length) (i + 1 + ds.length)
    else scanCells fuel rest (i + 1)

/-- All matches of `CELL_REGEX` in a string. -/
def cellMatches (s : String) : List CellMatch :=
  scanCells (s.length + 1) s.data 0

/-- One match of `RANGE_REGEX = /([A-Z][0-9]+):([A-Z][0-9]+)/g`. -/
structure RangeMatch where
  whole : String
  startRef : String
  endRef : String
  idx : Nat
deriving DecidableEq, Repr

/-- Try to match `RANGE_REGEX` at the head of the character list. -/
def rangeAt (cs : List Char) : Option (List Char × List Char × List Char) :=
  match cs with
  | c :: rest =>
    if isUpperAZ c then
      let ds := rest.takeWhile isDigit09
      if ds.isEmpty then none
      else
        match rest.drop ds.length with
        | ':' :: rest2 =>
          match rest2 with
          | c2 :: rest3 =>
            if isUpperAZ c2 then
              let ds2 := rest3.takeWhile isDigit09
              if ds2.isEmpty then none
              else some (c :: ds, c2 :: ds2, rest3.drop ds2.length)
            else none
          | [] => none
        | _ => none
    else none
  | [] => none

/-- Scanner for `RANGE_REGEX` with `matchAll` semantics. -/
def scanRanges : Nat → List Char → Nat → List RangeMatch
  | 0, _, _ => []
  | _ + 1, [], _ => []
  | fuel + 1, c :: rest, i =>
    match rangeAt (c :: rest) with
    | some (s, e, remaining) =>
      let len := s.length + 1 + e.length
      { whole := String.mk (s ++ ':' :: e), startRef := String.mk s,
        endRef := String.mk e, idx := i } ::
        scanRanges fuel remaining (i + len)
    | none => scanRanges fuel rest (i + 1)

/-- All matches of `RANGE_REGEX` in a string. -/
def rangeMatches (s : String) : List RangeMatch :=
  scanRanges (s.length + 1) s.data 0

/-- One match of `FUNCTION_REGEX = /([A-Z]+)\s*\(/gi`: whole text, name, index. -/
structure FuncMatch where
  whole : String
  name : String
  idx : Nat
deriving DecidableEq, Repr

/-- Try to match `FUNCTION_REGEX` at the head of the character list. -/
def funcAt (cs : List Char) : Option (List Char × List Char) :=
  let letters := cs.takeWhile isAlphaAny
  if letters.isEmpty then none
  else
    let afterLetters := cs.drop letters.length
    let spaces := afterLetters.takeWhile isJsSpace
    match afterLetters.drop spaces.length with
    | '(' :: rest => some (letters ++ spaces ++ ['('], rest)
    | _ => none

/-- The letters group of a function match (everything before the spaces). -/
def funcName (matched : List Char) : List Char := matched.takeWhile isAlphaAny

/-- Scanner for `FUNCTION_REGEX` with `matchAll` semantics. -/
def scanFuncs : Nat → List Char → Nat → List FuncMatch
  | 0, _, _ => []
  | _ + 1, [], _ => []
  | fuel + 1, c :: rest, i =>
    match funcAt (c :: rest) with
    | some (matched, remaining) =>
      { whole := String.mk matched, name := String.mk (funcName matched), idx := i } ::
        scanFuncs fuel remaining (i + matched.length)
    | none => scanFuncs fuel rest (i + 1)

/-- All matches of `FUNCTION_REGEX` in a string. -/
def funcMatches (s : String) : List FuncMatch :=
  scanFuncs (s.length + 1) s.data 0

/-- `Set.add` on insertion-ordered duplicate-free lists. -/
def setAdd (l : List String) (x : String) : List String :=
  if x ∈ l then l else l ++ [x]

/-- Insertion-order deduplication, as `Array.from(new Set(...))` produces. -/
def dedupKeepFirst (l : List String) : List String :=
  l.foldl setAdd []

/-- `expandRange` from `FormulaParser.ts`: expand a range endpoint pair into
its member cells (same column: vertical inclusive span; same row:
horizontal inclusive span; otherwise empty). -/
def expandRange (start stop : String) : List String :=
  match cellMatches start, cellMatches stop with
  | sm :: _, em :: _ =>
    match sm.whole.data, em.whole.data with
    | sc :: sds, ec :: eds =>
      let startRow := digitsToNat sds
      let endRow := digitsToNat eds
      if sc = ec then
        let lo := min startRow endRow
        let hi := max startRow endRow
        (List.range (hi + 1 - lo)).map (fun k => String.mk [sc] ++ Nat.repr (lo + k))
      else if startRow = endRow then
        let sIdx := sc.toNat - 65
        let eIdx := ec.toNat - 65
        let lo := min sIdx eIdx
        let hi := max sIdx eIdx
        (List.range (hi + 1 - lo)).map
          (fun k => String.mk [Char.ofNat (65 + (lo + k))] ++ Nat.repr startRow)
      else []
    | _, _ => []
  | _, _ => []

/-- `extractCellReferences` from `FormulaParser.ts`: all bare cell matches,
then all range-expansion members, collected into an insertion-ordered set. -/
def extractCellReferences (formula : String) : List String :=
  let refs := (cellMatches formula).map (fun m => m.whole)
  let ranges := (rangeMatches formula).foldl
    (fun acc r => acc ++ expandRange r.startRef r.endRef) []
  dedupKeepFirst (refs ++ ranges)

/-- `isValidCellReference` from `FormulaParser.ts`: regex `^[A-J][1-5]$`. -/
def isValidCellReference (cellRef : String) : Bool :=
  match cellRef.data with
  | [c, r] => ('A' ≤ c && c ≤ 'J') && ('1' ≤ r && r ≤ '5')
  | _ => false

/-- The operator characters recognized by `tokenize`. -/
def OPERATORS : List Char := ['+', '-', '*', '/', '(', ')']

/-- `tokenize` from `FormulaParser.ts`: split an expression into operator
characters and trimmed operand words. -/
def tokenizeGo : List Char → List Char → List String
  | [], current =>
    let t := trimStr (String.mk current)
    if t = "" then [] else [t]
  | c :: rest, current =>
    if c ∈ OPERATORS then
      let t := trimStr (String.mk current)
      (if t = "" then [] else [t]) ++ String.mk [c] :: tokenizeGo rest []
    else if c = ' ' then
      let t := trimStr (String.mk current)
      (if t = "" then [] else [t]) ++ tokenizeGo rest []
    else tokenizeGo rest (current ++ [c])

/-- `tokenize` on a whole string. -/
def tokenize (expression : String) : List String :=
  tokenizeGo expression.data []

/-- Result of `parseFormula`. -/
structure ParseResult where
  tokens : List String
  dependencies : List String
deriving DecidableEq, Repr

/-- `parseFormula` from `FormulaParser.ts`. -/
def parseFormula (formula : String) : ParseResult :=
  if ¬ strStartsWith formula "=" then { tokens := [formula], dependencies := [] }
  else
    let expression := formula.drop 1
    { tokens := tokenize expression,
      dependencies := extractCellReferences expression }

/-- A JavaScript arithmetic result: a finite number or a non-finite one
(`Infinity`/`NaN`), which is all `isFinite` distinguishes. -/
inductive JNum where
  | fin (q : Q)
  | nonfin
deriving DecidableEq, Repr

/-- JavaScript addition on the finite/non-finite abstraction. -/
def jAdd : JNum → JNum → JNum
  | .fin a, .fin b => .fin (a + b)
  | _, _ => .nonfin

/-- JavaScript subtraction. -/
def jSub : JNum → JNum → JNum
  | .fin a, .fin b => .fin (a - b)
  | _, _ => .nonfin

/-- JavaScript multiplication. -/
def jMul : JNum → JNum → JNum
  | .fin a, .fin b => .fin (a * b)
  | _, _ => .nonfin

/-- JavaScript division: a zero divisor gives a non-finite result. -/
def jDiv : JNum → JNum → JNum
  | .fin a, .fin b => if b = 0 then .nonfin else .fin (a / b)
  | _, _ => .nonfin

/-- JavaScript unary minus. -/
def jNeg : JNum → JNum
  | .fin a => .fin (-a)
  | .nonfin => .nonfin

/-- Tokens of the numeric sub-language accepted by `evaluateExpression`. -/
inductive ATok where
  | lit (q : Q)
  | plus
  | minus
  | star
  | slash
  | lpar
  | rpar
deriving DecidableEq, Repr

/-- Lex one numeric literal (`123`, `1.5`, `.5`, `5.`) from the front. -/
def lexNum (cs : List Char) : Option (Q × List Char) :=
  let intDs := cs.takeWhile isDigit09
  let rest := cs.drop intDs.length
  match rest with
  | '.' :: rest2 =>
    let fracDs := rest2.takeWhile isDigit09
    if intDs.isEmpty && fracDs.isEmpty then none
    else
      some (Q.ofNat (digitsToNat intDs) + Q.ofNat (digitsToNat fracDs) / Q.ofNat (10 ^ fracDs.length),
        rest2.drop fracDs.length)
  | _ =>
    if intDs.isEmpty then none
    else some (Q.ofNat (digitsToNat intDs), rest)

/-- Lexer for the arithmetic sub-language (digits, dot, `+ - * / ( )`, space). -/
def lexArith : Nat → List Char → Option (List ATok)
  | 0, _ => none
  | _ + 1, [] => some []
  | fuel + 1, c :: rest =>
    if c = ' ' then lexArith fuel rest
    else if c = '+' then (lexArith fuel rest).map (ATok.plus :: ·)
    else if c = '-' then (lexArith fuel rest).map (ATok.minus :: ·)
    else if c = '*' then (lexArith fuel rest).map (ATok.star :: ·)
    else if c = '/' then (lexArith fuel rest).map (ATok.slash :: ·)
    else if c = '(' then (lexArith fuel rest).map (ATok.lpar :: ·)
    else if c = ')' then (lexArith fuel rest).map (ATok.rpar :: ·)
    else
      match lexNum (c :: rest) with
      | some (q, remaining) =>
        (lexArith fuel remaining).map (ATok.lit q :: ·)
      | none => none

/-- The state of the recursive-descent parser: which production is being
parsed, with the left-associated accumulator for the continuation modes. -/
inductive PMode where
  | expr
  | term
  | factor
  | exprRest (v : JNum)
  | termRest (v : JNum)

/-- Recursive-descent parser for the arithmetic sub-language, as a single
fuel-structural function over parsing modes: an expression is terms joined
by `+`/`-`, a term is factors joined by `*`/`/`, a factor is a literal, a
signed factor, or a parenthesized expression. -/
def parseRun : Nat → PMode → List ATok → Option (JNum × List ATok)
  | 0, _, _ => none
  | fuel + 1, .expr, ts =>
    match parseRun fuel .term ts with
    | some (v, rest) => parseRun fuel (.exprRest v) rest
    | none => none
  | fuel + 1, .term, ts =>
    match parseRun fuel .factor ts with
    | some (v, rest) => parseRun fuel (.termRest v) rest
    | none => none
  | fuel + 1, .factor, ts =>
    match ts with
    | .lit q :: rest => some (.fin q, rest)
    | .plus :: rest => parseRun fuel .factor rest
    | .minus :: rest => (parseRun fuel .factor rest).map (fun p => (jNeg p.1, p.2))
    | .lpar :: rest =>
      match parseRun fuel .expr rest with
      | some (v, .rpar :: rest2) => some (v, rest2)
      | _ => none
    | _ => none
  | fuel + 1, .exprRest v, ts =>
    match ts with
    | .plus :: rest =>
      match parseRun fuel .term rest with
      | some (w, rest2) => parseRun fuel (.exprRest (jAdd v w)) rest2
      | none => none
    | .minus :: rest =>
      match parseRun fuel .term rest with
      | some (w, rest2) => parseRun fuel (.exprRest (jSub v w)) rest2
      | none => none
    | _ => some (v, ts)
  | fuel + 1, .termRest v, ts =>
    match ts with
    | .star :: rest =>
      match parseRun fuel .factor rest with
      | some (w, rest2) => parseRun fuel (.termRest (jMul v w)) rest2
      | none => none
    | .slash :: rest =>
      match parseRun fuel .factor rest with
      | some (w, rest2) => parseRun fuel (.termRest (jDiv v w)) rest2
      | none => none
    | _ => some (v, ts)

/-- `Math.round(x * 1000000) / 1000000`: round half toward positive infinity
at six decimal places. -/
def round6 (q : Q) : Q :=
  Q.ofInt (Q.floor (q * 1000000 + Q.mk' 1 2)) / 1000000

/-- The character class `/^[0-9+\-*\/.() ]+$/` of `evaluateExpression`. -/
def isArithChar (c : Char) : Bool :=
  isDigit09 c || c = '+' || c = '-' || c = '*' || c = '/' || c = '.' ||
    c = '(' || c = ')' || c = ' '

/-- `evaluateExpression` from `FormulaParser.ts`: after the character-class
check, evaluate the expression as JavaScript would (a syntax failure is the
caught exception path `#ERROR!`, an empty body returns `undefined` and hence
`#NUM!`, a non-finite value gives `#NUM!`), rounding the result to six
decimal places. -/
def evaluateExpression (expression : String) : JSValue :=
  let cs := expression.data
  if ¬ cs.isEmpty && cs.all isArithChar then
    match lexArith (cs.length + 1) cs with
    | none => .str "#ERROR!"
    | some [] => .str "#NUM!"
    | some ts =>
      match parseRun (5 * ts.length + 10) .expr ts with
      | some (.fin q, []) => .num (round6 q)
      | some (.nonfin, []) => .str "#NUM!"
      | _ => .str "#ERROR!"
  else .str "#VALUE!"

/-- Decimal digits of the fractional part of a nonnegative rational,
up to the given bound. -/
def fracDigits : Nat → Q → List Char
  | 0, _ => []
  | fuel + 1, r =>
    if r = 0 then []
    else
      let r10 := r * 10
      let d := r10.floor.toNat
      Char.ofNat (48 + d) :: fracDigits fuel (r10 - Q.ofNat d)

/-- JavaScript `Number.prototype.toString` on the rationals the engine
produces: sign, integer part, and fractional digits when present. -/
def numToString (q : Q) : String :=
  if q < 0 then "-" ++ numToStringCore (-q) else numToStringCore q
where
  /-- Decimal text of a nonnegative rational. -/
  numToStringCore (r : Q) : String :=
    let intPart := r.floor.toNat
    let frac := r - Q.ofNat intPart
    if frac = 0 then Nat.repr intPart
    else Nat.repr intPart ++ "." ++ String.mk (fracDigits 20 frac)

/-- `JSValue` rendered as JavaScript `toString` renders it. -/
def JSValue.render : JSValue → String
  | .str s => s
  | .num q => numToString q

/-- JavaScript `parseFloat` restricted to plain decimal notation: skip
leading whitespace, optional sign, then the longest numeric prefix;
`none` models `NaN`. -/
def parseFloatJS (s : String) : Option Q :=
  let cs := s.data.dropWhile isJsSpace
  match cs with
  | '-' :: rest => (parseFloatCore rest).map Neg.neg
  | '+' :: rest => parseFloatCore rest
  | _ => parseFloatCore cs
where
  /-- Longest unsigned decimal prefix, if any. -/
  parseFloatCore (cs : List Char) : Option Q :=
    match lexNum cs with
    | some (q, _) => some q
    | none => none

/-- `SpreadsheetError` from `types.ts`. -/
inductive SpreadsheetError where
  | circular (message : String) (chain : List String)
  | formula (message : String)
  | reference (message : String) (invalidRef : String)
deriving DecidableEq, Repr

/-- The `message` field of a `SpreadsheetError`. -/
def SpreadsheetError.message : SpreadsheetError → String
  | .circular m _ => m
  | .formula m => m
  | .reference m _ => m

/-- `EvaluationResult` from `types.ts`. -/
structure EvaluationResult where
  value : JSValue
  error : Option String := none
  dependencies : List String := []
deriving DecidableEq, Repr

/-- `evaluateFunction` from `FormulaParser.ts`: the five aggregate
functions, any other name giving `#NAME!`. -/
def evaluateFunction (functionName : String) (args : List Q) : JSValue :=
  let up := strUpper functionName
  if up = "SUM" then .num (args.foldl (· + ·) 0)
  else if up = "AVERAGE" then
    .num (if args.length > 0 then args.foldl (· + ·) 0 / Q.ofNat args.length else 0)
  else if up = "MIN" then
    .num (match args with | [] => 0 | a :: rest => rest.foldl Q.min2 a)
  else if up = "MAX" then
    .num (match args with | [] => 0 | a :: rest => rest.foldl Q.max2 a)
  else if up = "COUNT" then .num (Q.ofNat args.length)
  else .str "#NAME!"

/-- JavaScript `String.prototype.slice(start, stop)` for `start ≤ stop`. -/
def sliceStr (s : String) (start stop : Nat) : String :=
  String.mk ((s.data.drop start).take (stop - start))

/-- Replace the first occurrence of `pat` (as `replace` with a string
pattern does); an empty pattern matches at the front. -/
def replaceFirstL (pat repl : List Char) : List Char → List Char
  | [] => if pat.isEmpty then repl else []
  | c :: rest =>
    if pat.isPrefixOf (c :: rest) then repl ++ (c :: rest).drop pat.length
    else c :: replaceFirstL pat repl rest

/-- `replaceFirstL` on strings. -/
def replaceFirst (s pat repl : String) : String :=
  String.mk (replaceFirstL pat.data repl.data s.data)

/-- Replace every occurrence of a (non-empty) pattern, scanning left to
right and never rescanning replacement text, as a global regex replace of a
plain identifier does. -/
def replaceAllL (pat repl : List Char) : Nat → List Char → List Char
  | 0, s => s
  | fuel + 1, s =>
    if pat.isPrefixOf s && ¬ pat.isEmpty then
      repl ++ replaceAllL pat repl fuel (s.drop pat.length)
    else
      match s with
      | [] => []
      | c :: rest => c :: replaceAllL pat repl fuel rest

/-- `replaceAllL` on strings. -/
def replaceAll (s pat repl : String) : String :=
  String.mk (replaceAllL pat.data repl.data (s.length + 1) s.data)

/-- Resolve a list of cell identifiers to numeric arguments, appending to
`args`: missing values and non-numeric strings are skipped. -/
def pushCellArgs (getCellValue : String → Option JSValue) (args : List Q)
    (cells : List String) : List Q :=
  cells.foldl (fun acc cellId =>
    match getCellValue cellId with
    | none => acc
    | some (.num q) => acc ++ [q]
    | some (.str s) =>
      match parseFloatJS s with
      | some q => acc ++ [q]
      | none => acc) args

/-- The balanced-parenthesis scan of `evaluateFormula`: starting at index
`i` with count 0, the index of the parenthesis that closes the first one. -/
def findBalanced : List Char → Nat → Int → Option Nat
  | [], _, _ => none
  | c :: rest, i, count =>
    let count1 := if c = '(' then count + 1 else count
    if c = ')' then
      if count1 - 1 = 0 then some i else findBalanced rest (i + 1) (count1 - 1)
    else findBalanced rest (i + 1) count1

/-- Process one `FUNCTION_REGEX` match inside `evaluateFormula`: locate the
balanced call text in `expression`, build the flattened numeric argument
list (ranges first, then leftover individual cells), apply the function,
and substitute the result for the first occurrence of the call text in the
processed expression. -/
def applyFuncMatch (expression : String) (getCellValue : String → Option JSValue)
    (processed : String) (m : FuncMatch) : String :=
  let startIndex := m.idx
  let fcLen := m.whole.length
  let initEnd := startIndex + fcLen - 1
  let endIndex := (findBalanced (expression.data.drop initEnd) initEnd 0).getD initEnd
  let fullFunctionCall := sliceStr expression startIndex (endIndex + 1)
  let argsString := sliceStr expression (startIndex + fcLen) endIndex
  let ranges := rangeMatches argsString
  let args1 := ranges.foldl
    (fun acc r => pushCellArgs getCellValue acc (expandRange r.startRef r.endRef)) []
  let argsWithoutRanges := ranges.foldl (fun s r => replaceFirst s r.whole "") argsString
  let args := pushCellArgs getCellValue args1
    ((cellMatches argsWithoutRanges).map (fun c => c.whole))
  let result := evaluateFunction m.name args
  replaceFirst processed fullFunctionCall result.render

/-- The reference-substitution loop of `evaluateFormula` for formulas
without function calls: missing cells substitute as `0`, numeric strings as
their parsed value, numbers directly; a non-numeric string aborts with the
offending reference and its text. -/
def substituteRefs (getCellValue : String → Option JSValue) :
    List String → String → Except (String × String) String
  | [], processed => .ok processed
  | cellRef :: rest, processed =>
    match getCellValue cellRef with
    | none => substituteRefs getCellValue rest (replaceAll processed cellRef "0")
    | some (.str s) =>
      match parseFloatJS s with
      | none => .error (cellRef, s)
      | some q => substituteRefs getCellValue rest (replaceAll processed cellRef (numToString q))
    | some (.num q) => substituteRefs getCellValue rest (replaceAll processed cellRef (numToString q))

/-- `evaluateFormula` from `FormulaParser.ts`. -/
def evaluateFormula (formula : String) (getCellValue : String → Option JSValue) :
    EvaluationResult :=
  if ¬ strStartsWith formula "=" then { value := .str formula, dependencies := [] }
  else
    let expression := formula.drop 1
    let dependencies := extractCellReferences expression
    match dependencies.find? (fun dep => ! isValidCellReference dep) with
    | some dep =>
      { value := .str "#REF!", error := some ("Invalid cell reference: " ++ dep),
        dependencies := [] }
    | none =>
      let fms := funcMatches expression
      if ¬ fms.isEmpty then
        let processed := fms.foldl (applyFuncMatch expression getCellValue) expression
        if strStartsWith processed "#" then
          { value := .str processed, error := some processed, dependencies }
        else
          match evaluateExpression processed with
          | .str r =>
            if strStartsWith r "#" then
              { value := .str r, error := some r, dependencies }
            else { value := .str r, dependencies }
          | .num q => { value := .num q, dependencies }
      else
        match substituteRefs getCellValue dependencies expression with
        | .error (cellRef, s) =>
          { value := .str "#VALUE!",
            error := some ("Non-numeric value in cell " ++ cellRef ++ ": " ++ s),
            dependencies }
        | .ok processed =>
          match evaluateExpression processed with
          | .str r =>
            { value := .str r,
              error := if strStartsWith r "#" then some r else none, dependencies }
          | .num q => { value := .num q, dependencies }

/-- The parenthesis-balance loop of `validateFormula`: a running counter
that must never go negative and must end at zero. -/
def parenScan : List Char → Int → Option SpreadsheetError
  | [], n => if n ≠ 0 then some (.formula "Unmatched opening parenthesis") else none
  | c :: rest, n =>
    let n1 := if c = '(' then n + 1 else if c = ')' then n - 1 else n
    if n1 < 0 then some (.formula "Unmatched closing parenthesis")
    else parenScan rest n1

/-- `validateFormula` from `FormulaParser.ts`. -/
def validateFormula (formula : String) : Option SpreadsheetError :=
  if ¬ strStartsWith formula "=" then none
  else
    let expression := formula.drop 1
    match parenScan expression.data 0 with
    | some e => some e
    | none =>
      match (extractCellReferences expression).find? (fun r => ! isValidCellReference r) with
      | some r => some (.reference ("Invalid cell reference: " ++ r) r)
      | none => none

/-- An insertion-ordered map from strings to insertion-ordered string sets,
modelling `Map<string, Set<string>>`. -/
abbrev SMap := List (String × List String)

/-- `Map.get`. -/
def mapFind : SMap → String → Option (List String)
  | [], _ => none
  | (k, v) :: rest, key => if k = key then some v else mapFind rest key

/-- `Map.has`. -/
def mapHasKey (m : SMap) (key : String) : Bool :=
  (mapFind m key).isSome

/-- `Map.set`: update an existing key in place, otherwise append. -/
def mapSet : SMap → String → List String → SMap
  | [], key, v => [(key, v)]
  | (k, w) :: rest, key, v =>
    if k = key then (k, v) :: rest else (k, w) :: mapSet rest key v

/-- `Map.delete`. -/
def mapDelete : SMap → String → SMap
  | [], _ => []
  | (k, v) :: rest, key => if k = key then rest else (k, v) :: mapDelete rest key

/-- The dependency graph of `DependencyGraph.ts`: forward edges
(dependent → dependencies) and the symmetric reverse map. -/
structure Graph where
  dependencies : SMap
  dependents : SMap
deriving DecidableEq

/-- The empty graph (`createDependencyGraph` / `clear`). -/
def emptyGraph : Graph := { dependencies := [], dependents := [] }

/-- `addDependency` from `DependencyGraph.ts`: ensure both keys exist, then
add each direction into the corresponding set. -/
def addDependency (g : Graph) (dependent dependency : String) : Graph :=
  let ds := if mapHasKey g.dependencies dependent then g.dependencies
            else g.dependencies ++ [(dependent, [])]
  let dt := if mapHasKey g.dependents dependency then g.dependents
            else g.dependents ++ [(dependency, [])]
  { dependencies := mapSet ds dependent (setAdd ((mapFind ds dependent).getD []) dependency),
    dependents := mapSet dt dependency (setAdd ((mapFind dt dependency).getD []) dependent) }

/-- `removeDependencies` from `DependencyGraph.ts`: detach `cell` from every
dependency's dependents set, then drop its own forward entry. -/
def removeDependencies (g : Graph) (cell : String) : Graph :=
  match mapFind g.dependencies cell with
  | none => g
  | some deps =>
    { dependencies := mapDelete g.dependencies cell,
      dependents := deps.foldl
        (fun m dep =>
          match mapFind m dep with
          | some l => mapSet m dep (l.erase cell)
          | none => m)
        g.dependents }

/-- `getDependencies`. -/
def getDependencies (g : Graph) (cell : String) : List String :=
  (mapFind g.dependencies cell).getD []

/-- `getDependents`. -/
def getDependents (g : Graph) (cell : String) : List String :=
  (mapFind g.dependents cell).getD []

/-- Fuel large enough that a visited-set-guarded traversal of the
dependents map never exhausts it: two more than the total size of the map. -/
def dependentsFuel (g : Graph) : Nat :=
  2 + g.dependents.foldl (fun n p => n + 1 + p.2.length) 0

/-- Fuel for a traversal of a forward-edges map. -/
def smapFuel (m : SMap) : Nat :=
  2 + m.foldl (fun n p => n + 1 + p.2.length) 0

/-- The recursive `collectDependents` closure of `getAllDependents`: skip an
already-visited cell, otherwise mark it visited and walk its direct
dependents with a fold that pushes each onto the result before recursing
into it.  Structural on the fuel, which only visiting a fresh cell
consumes. -/
def collectGo (g : Graph) : Nat → String → List String × List String →
    List String × List String
  | 0, _, st => st
  | fuel + 1, current, (visited, result) =>
    if current ∈ visited then (visited, result)
    else
      (getDependents g current).foldl
        (fun st d => collectGo g fuel d (st.1, st.2 ++ [d]))
        (visited ++ [current], result)

/-- `getAllDependents` from `DependencyGraph.ts`. -/
def getAllDependents (g : Graph) (cell : String) : List String :=
  (collectGo g (dependentsFuel g) cell ([], [])).2

/-- The recursive `hasCycle` of `checkCircularReference`: a node on the
recursion stack is a cycle; a visited node is not; otherwise mark, push
onto stack and path, and try each forward edge with a fold that stops
running once a cycle was found.  A cycle returns early, leaving the stack
and path as they were at detection; otherwise the node is popped from
both. -/
def hasCycleGo (tg : SMap) : Nat → String →
    List String × List String × List String →
    Bool × (List String × List String × List String)
  | 0, _, st => (false, st)
  | fuel + 1, node, (visited, stack, path) =>
    if node ∈ stack then (true, (visited, stack, path))
    else if node ∈ visited then (false, (visited, stack, path))
    else
      let r := ((mapFind tg node).getD []).foldl
        (fun acc dep => if acc.1 then acc else hasCycleGo tg fuel dep acc.2)
        (false, (visited ++ [node], stack ++ [node], path ++ [node]))
      if r.1 then r
      else (false, (r.2.1, r.2.2.1.erase node, r.2.2.2.dropLast))

/-- Index of the first occurrence of `x`, as `Array.prototype.indexOf`
returns it for an element known to be present (`0` when absent, which the
call site cannot reach: the start node is always first on the path). -/
def idxOfFirst (l : List String) (x : String) : Nat :=
  match l with
  | [] => 0
  | y :: rest => if y = x then 0 else idxOfFirst rest x + 1

/-- `checkCircularReference` from `DependencyGraph.ts`: simulate the
candidate edges in a copy of the forward map, run the depth-first cycle
check from the candidate cell, and report the cycle path on detection.  The
real graph is returned exactly as it was. -/
def checkCircularReference (g : Graph) (cell : String)
    (cellDependencies : List String) : Graph × Option SpreadsheetError :=
  let tempGraph := mapSet g.dependencies cell (dedupKeepFirst cellDependencies)
  let r := hasCycleGo tempGraph (smapFuel tempGraph) cell ([], [], [])
  if r.1 then
    let path := r.2.2.2
    let cycleStart := idxOfFirst path cell
    let cycle := path.drop cycleStart ++ [cell]
    ({ dependencies := g.dependencies, dependents := g.dependents },
      some (.circular ("Circular reference detected: " ++ String.intercalate " → " cycle) cycle))
  else
    ({ dependencies := g.dependencies, dependents := g.dependents }, none)

/-- `getStats` from `DependencyGraph.ts`: total forward-edge count and
number of cells owning a forward entry. -/
def graphStats (g : Graph) : Nat × Nat :=
  (g.dependencies.foldl (fun n p => n + p.2.length) 0, g.dependencies.length)

/-- `CellData` from `types.ts`. -/
structure CellData where
  id : String
  value : Option JSValue := none
  formula : Option String := none
  error : Option String := none
  dependents : List String := []
  dependencies : List String := []
deriving DecidableEq, Repr

/-- The engine's cell store: a JavaScript object keyed by cell identifier,
in property insertion order. -/
abbrev Cells := List (String × CellData)

/-- Property lookup on the cell store. -/
def lookupCell : Cells → String → Option CellData
  | [], _ => none
  | (k, c) :: rest, key => if k = key then some c else lookupCell rest key

/-- Property assignment: update an existing key in place, else append. -/
def setCell : Cells → String → CellData → Cells
  | [], key, c => [(key, c)]
  | (k, c0) :: rest, key, c =>
    if k = key then (k, c) :: rest else (k, c0) :: setCell rest key c

/-- `delete data.cells[cellId]`. -/
def deleteCell : Cells → String → Cells
  | [], _ => []
  | (k, c) :: rest, key => if k = key then rest else (k, c) :: deleteCell rest key

/-- `SpreadsheetData` from `types.ts`: the exportable snapshot. -/
structure SpreadsheetData where
  cells : Cells
  lastModified : Nat
  version : Nat
deriving DecidableEq

/-- The full engine state: the snapshot data, the live dependency graph,
and a count of change notifications emitted to observers. -/
structure EngineState where
  cells : Cells
  lastModified : Nat
  version : Nat
  graph : Graph
  notifications : Nat
deriving DecidableEq

/-- JavaScript truthiness of an optional string field. -/
def optTruthy : Option String → Bool
  | some s => s ≠ ""
  | none => false

/-- Modelled from the spec: `shared/constants` is not part of the engine
sources; the spec fixes a 10-column × 5-row space with columns `A`–`J`. -/
def COLUMNS : List Char := ['A', 'B', 'C', 'D', 'E', 'F', 'G', 'H', 'I', 'J']

/-- `isValidCellId` from `SpreadsheetEngine.ts`: regex `^([A-J])([1-5])$`
followed by the (redundant) bounds checks on column index and row index. -/
def isValidCellId (cellId : String) : Bool :=
  match cellId.data with
  | [c, r] =>
    if ('A' ≤ c && c ≤ 'J') && ('1' ≤ r && r ≤ '5') then
      let colIndex := idxOfFirst (COLUMNS.map (fun ch => String.mk [ch])) (String.mk [c])
      let rowIndex := (r.toNat - 48) - 1
      decide (colIndex < 10) && decide (rowIndex < 5)
    else false
  | _ => false

/-- `getRawValue` from `SpreadsheetEngine.ts`: a `#`-sentinel string value
wins over the error message; otherwise an errored cell yields its error
message; otherwise the stored value. -/
def getRawValue (cells : Cells) (cellId : String) : Option JSValue :=
  match lookupCell cells cellId with
  | none => none
  | some cell =>
    match cell.error with
    | some e =>
      if e ≠ "" then
        match cell.value with
        | some (.str s) =>
          if strStartsWith s "#" then some (.str s) else some (.str e)
        | _ => some (.str e)
      else cell.value
    | none => cell.value

/-- `getFormula` from `SpreadsheetEngine.ts`. -/
def getFormula (cells : Cells) (cellId : String) : Option String :=
  (lookupCell cells cellId).bind (fun c => c.formula)

/-- `recalculateDependents` from `SpreadsheetEngine.ts`: walk every
transitive dependent in discovery order and, for those holding a formula,
re-evaluate it against the store as updated so far, overwriting value and
error in place. -/
def recalculateDependents (g : Graph) (cells : Cells) (cellId : String) : Cells :=
  (getAllDependents g cellId).foldl
    (fun cs dependent =>
      match lookupCell cs dependent with
      | some cell =>
        match cell.formula with
        | some f =>
          if f ≠ "" then
            let result := evaluateFormula f (getRawValue cs)
            setCell cs dependent
              { cell with value := some result.value, error := result.error }
          else cs
        | none => cs
      | none => cs)
    cells

/-- `rebuildDependencyGraph` from `SpreadsheetEngine.ts`: clear the graph
and replay every stored formula's parsed dependencies. -/
def rebuildGraph (cells : Cells) : Graph :=
  cells.foldl
    (fun g p =>
      match p.2.formula with
      | some f =>
        if f ≠ "" then
          (parseFormula f).dependencies.foldl (fun g2 dep => addDependency g2 p.1 dep) g
        else g
      | none => g)
    emptyGraph

/-- A fresh engine (`createSpreadsheetEngine()` with no initial data);
the initial timestamp is modelled as 0 and the version is 1. -/
def initEngine : EngineState :=
  { cells := [], lastModified := 0, version := 1, graph := rebuildGraph [],
    notifications := 0 }

/-- `set` from `SpreadsheetEngine.ts`.  `now` is the clock value used for
`new Date()`.  Returns the new state and the accepted/rejected boolean. -/
def set (s : EngineState) (now : Nat) (cellId : String) (value : Option JSValue)
    (formula : Option String) : EngineState × Bool :=
  if isValidCellId cellId then
    let oldCell := lookupCell s.cells cellId
    let oldDependents := match oldCell with
      | some oc => oc.dependents
      | none => []
    let graph1 :=
      if optTruthy (oldCell.bind (fun oc => oc.formula)) then
        removeDependencies s.graph cellId
      else s.graph
    match formula with
    | some f =>
      if f ≠ "" then
        match validateFormula f with
        | some formulaError =>
          ({ s with
              cells := setCell s.cells cellId
                { id := cellId, formula := some f, error := some formulaError.message,
                  dependents := oldDependents, dependencies := [] },
              graph := graph1, notifications := s.notifications + 1 }, false)
        | none =>
          let deps := (parseFormula f).dependencies
          match (checkCircularReference graph1 cellId deps).2 with
          | some circularError =>
            ({ s with
                cells := setCell s.cells cellId
                  { id := cellId, formula := some f, error := some circularError.message,
                    dependents := oldDependents, dependencies := [] },
                graph := (checkCircularReference graph1 cellId deps).1,
                notifications := s.notifications + 1 }, false)
          | none =>
            let graph2 := deps.foldl (fun g dep => addDependency g cellId dep) graph1
            let result := evaluateFormula f (getRawValue s.cells)
            if optTruthy result.error then
              ({ s with
                  cells := setCell s.cells cellId
                    { id := cellId, formula := some f, value := some result.value,
                      error := result.error, dependents := oldDependents,
                      dependencies := deps },
                  graph := graph2, notifications := s.notifications + 1 }, false)
            else
              let cells1 := setCell s.cells cellId
                { id := cellId, formula := some f, value := some result.value,
                  error := result.error, dependents := oldDependents,
                  dependencies := deps }
              ({ cells := recalculateDependents graph2 cells1 cellId,
                  lastModified := now, version := s.version + 1, graph := graph2,
                  notifications := s.notifications + 1 }, true)
      else
        let cells1 := setCell s.cells cellId
          { id := cellId, value := value, dependents := oldDependents,
            dependencies := [] }
        ({ cells := recalculateDependents graph1 cells1 cellId,
            lastModified := now, version := s.version + 1, graph := graph1,
            notifications := s.notifications + 1 }, true)
    | none =>
      let cells1 := setCell s.cells cellId
        { id := cellId, value := value, dependents := oldDependents,
          dependencies := [] }
      ({ cells := recalculateDependents graph1 cells1 cellId,
          lastModified := now, version := s.version + 1, graph := graph1,
          notifications := s.notifications + 1 }, true)
  else (s, false)

/-- `clearCell` from `SpreadsheetEngine.ts`. -/
def clearCell (s : EngineState) (now : Nat) (cellId : String) : EngineState × Bool :=
  if isValidCellId cellId then
    match lookupCell s.cells cellId with
    | none => (s, true)
    | some _ =>
      let graph1 := removeDependencies s.graph cellId
      let cells1 := deleteCell s.cells cellId
      ({ cells := recalculateDependents graph1 cells1 cellId,
          lastModified := now, version := s.version + 1, graph := graph1,
          notifications := s.notifications + 1 }, true)
  else (s, false)

/-- `exportData` from `SpreadsheetEngine.ts`. -/
def exportData (s : EngineState) : SpreadsheetData :=
  { cells := s.cells, lastModified := s.lastModified, version := s.version }

/-- `importData` from `SpreadsheetEngine.ts`: replace the snapshot data
wholesale, rebuild the graph from the imported formulas, and notify. -/
def importData (s : EngineState) (newData : SpreadsheetData) : EngineState :=
  { cells := newData.cells, lastModified := newData.lastModified,
    version := newData.version, graph := rebuildGraph newData.cells,
    notifications := s.notifications + 1 }

/-- The graph as `set` leaves it after step 2 (detaching the old formula's
edges when the overwritten cell held a truthy formula). -/
def detachOldFormula (s : EngineState) (cellId : String) : Graph :=
  if optTruthy ((lookupCell s.cells cellId).bind (fun oc => oc.formula)) then
    removeDependencies s.graph cellId
  else s.graph

/-- Engine holding the literal string `"Hello"` in `A1`. -/
def engineHello : EngineState :=
  (set initEngine 1 "A1" (some (.str "Hello")) none).1

/-- Diamond-shaped dependents: `B1` and `C1` both depend on `A1`, and `B1`
also depends on `C1`, so `B1` is reachable from `A1` along two paths. -/
def graphDiamond : Graph :=
  addDependency (addDependency (addDependency emptyGraph "B1" "A1") "C1" "A1") "B1" "C1"

/-- Engine after the validation-rejected write `A1 := "=K9"`: the formula
is stored with its reference error but no graph edges were registered. -/
def engineRejectedRef : EngineState :=
  (set initEngine 1 "A1" none (some "=K9")).1

/-- Engine with `A1 := 5` and the accepted formula `B1 := "=A1*2"`. -/
def engineAccepted : EngineState :=
  (set (set initEngine 1 "A1" (some (.num 5)) none).1 2 "B1" none (some "=A1*2")).1

/-- A stored cell whose evaluation failed with the `#NUM!` sentinel. -/
def cellNumErr : CellData :=
  { id := "A1", value := some (.str "#NUM!"), formula := some "=1/0",
    error := some "#NUM!", dependents := [], dependencies := [] }

/-- A stored cell whose validation failed: no value, only a message. -/
def cellMsgErr : CellData :=
  { id := "B2", value := none, formula := some "=((",
    error := some "Unmatched opening parenthesis", dependents := [],
    dependencies := [] }

/-- A store holding the two errored cells above. -/
def cellsErrored : Cells := [("A1", cellNumErr), ("B2", cellMsgErr)]

/-- Looking up any other key is unaffected by a property assignment. -/
theorem lookupCell_setCell_ne (cs : Cells) (key : String) (c : CellData)
    (k2 : String) (h : k2 ≠ key) :
    lookupCell (setCell cs key c) k2 = lookupCell cs k2 := by
  have h2 : key ≠ k2 := fun he => h he.symm
  induction cs with
  | nil => simp [setCell, lookupCell, h2]
  | cons p rest ih =>
    obtain ⟨k, v⟩ := p
    by_cases hk : k = key
    · subst hk
      simp [setCell, lookupCell, h2]
    · simp only [setCell, if_neg hk, lookupCell]
      by_cases hk2 : k = k2
      · simp [hk2]
      · simp [hk2, ih]

/-- Structural invariant of the `collectDependents` recursion: the visited
set only grows, by fresh duplicate-free cells, and the pushed output is a
permutation of the concatenated direct-dependents lists of the newly
visited cells. -/
theorem collect_spec (g : Graph) (fuel : Nat) :
    ∀ current visited result, ∃ newly tail,
      collectGo g fuel current (visited, result) = (visited ++ newly, result ++ tail) ∧
      tail.Perm ((newly.map (getDependents g)).flatten) ∧
      (∀ x ∈ newly, x ∉ visited) ∧
      (visited.Nodup → (visited ++ newly).Nodup) := by
  induction fuel with
  | zero =>
    intro current visited result
    exact ⟨[], [], by simp [collectGo], by simp, by simp, by simp⟩
  | succ n ih =>
    have hfold : ∀ ds visited result : List String, ∃ newly tail : List String,
        ds.foldl (fun st d => collectGo g n d (st.1, st.2 ++ [d])) (visited, result) =
          (visited ++ newly, result ++ tail) ∧
        tail.Perm (ds ++ (newly.map (getDependents g)).flatten) ∧
        (∀ x ∈ newly, x ∉ visited) ∧
        (visited.Nodup → (visited ++ newly).Nodup) := by
      intro ds
      induction ds with
      | nil =>
        intro visited result
        exact ⟨[], [], by simp, by simp, by simp, by simp⟩
      | cons d rest ihds =>
        intro visited result
        obtain ⟨n1, t1, heq1, hperm1, hfresh1, hnd1⟩ := ih d visited (result ++ [d])
        obtain ⟨n2, t2, heq2, hperm2, hfresh2, hnd2⟩ :=
          ihds (visited ++ n1) ((result ++ [d]) ++ t1)
        refine ⟨n1 ++ n2, d :: (t1 ++ t2), ?_, ?_, ?_, ?_⟩
        · simp only [List.foldl_cons]
          rw [heq1, heq2]
          simp
        · have hj : ((n1 ++ n2).map (getDependents g)).flatten =
              (n1.map (getDependents g)).flatten ++ (n2.map (getDependents g)).flatten := by
            simp
          rw [hj]
          have p1 : (t1 ++ t2).Perm
              ((n1.map (getDependents g)).flatten ++
                (rest ++ (n2.map (getDependents g)).flatten)) :=
            hperm1.append hperm2
          have p2 : ((n1.map (getDependents g)).flatten ++
                (rest ++ (n2.map (getDependents g)).flatten)).Perm
              ((rest ++ (n2.map (getDependents g)).flatten) ++
                (n1.map (getDependents g)).flatten) :=
            List.perm_append_comm
          have p3 : ((rest ++ (n2.map (getDependents g)).flatten) ++
                (n1.map (getDependents g)).flatten).Perm
              (rest ++ ((n1.map (getDependents g)).flatten ++
                (n2.map (getDependents g)).flatten)) := by
            rw [List.append_assoc]
            exact List.Perm.append_left rest List.perm_append_comm
          exact ((p1.trans p2).trans p3).cons d
        · intro x hx
          rcases List.mem_append.mp hx with hx1 | hx2
          · exact hfresh1 x hx1
          · intro hv
            exact hfresh2 x hx2 (List.mem_append.mpr (Or.inl hv))
        · intro hnodup
          have := hnd2 (hnd1 hnodup)
          simpa [List.append_assoc] using this
    intro current visited result
    by_cases hc : current ∈ visited
    · exact ⟨[], [], by simp [collectGo, hc], by simp, by simp, by simp⟩
    · obtain ⟨n2, t2, heq, hperm, hfresh, hnd⟩ :=
        hfold (getDependents g current) (visited ++ [current]) result
      refine ⟨current :: n2, t2, ?_, ?_, ?_, ?_⟩
      · simp only [collectGo, hc, if_false]
        rw [heq]
        simp
      · simpa using hperm
      · intro x hx
        rcases List.mem_cons.mp hx with hx1 | hx2
        · subst hx1; exact hc
        · intro hv
          exact hfresh x hx2 (List.mem_append.mpr (Or.inl hv))
      · intro hnodup
        have h1 : (visited ++ [current]).Nodup := by
          simp [List.nodup_append, hnodup, hc]
        have h2 := hnd h1
        simpa [List.append_assoc] using h2

/-- C1 (counterexample): with `A1` holding the string `"Hello"`, the write
`B1 := "=A1+1"` passes validation and the cycle check, registers the edge
`B1 → A1`, and is rejected by evaluation — yet the version counter and the
last-modified timestamp are NOT changed, contradicting the claim that this
path bumps them and recomputes dependents exactly as an accepted write. -/
theorem set_rejectedEval_noBump :
    (set engineHello 2 "B1" none (some "=A1+1")).2 = false ∧
    (evaluateFormula "=A1+1" (getRawValue engineHello.cells)).error =
      some "Non-numeric value in cell A1: Hello" ∧
    getDependencies (set engineHello 2 "B1" none (some "=A1+1")).1.graph "B1" = ["A1"] ∧
    (set engineHello 2 "B1" none (some "=A1+1")).1.version = engineHello.version ∧
    (set engineHello 2 "B1" none (some "=A1+1")).1.lastModified =
      engineHello.lastModified := by
  decide

/-- C1 (amended): a formula write that passes validation and the cycle
check but whose evaluation reports an error returns `Rejected`, leaves the
newly registered dependency edges in the graph and notifies observers, but
does NOT bump the version, update the timestamp, or touch any other cell —
no dependent recomputation happens on this path. -/
theorem set_rejectedEvalPath (s : EngineState) (now : Nat) (cellId : String)
    (v : Option JSValue) (f : String)
    (hvalid : isValidCellId cellId = true)
    (hne : f ≠ "")
    (hval : validateFormula f = none)
    (hcyc : (checkCircularReference (detachOldFormula s cellId) cellId
        (parseFormula f).dependencies).2 = none)
    (herr : optTruthy (evaluateFormula f (getRawValue s.cells)).error = true) :
    (set s now cellId v (some f)).2 = false ∧
    (set s now cellId v (some f)).1.version = s.version ∧
    (set s now cellId v (some f)).1.lastModified = s.lastModified ∧
    (set s now cellId v (some f)).1.graph =
      (parseFormula f).dependencies.foldl (fun g dep => addDependency g cellId dep)
        (detachOldFormula s cellId) ∧
    (∀ c, c ≠ cellId →
      lookupCell (set s now cellId v (some f)).1.cells c = lookupCell s.cells c) ∧
    (set s now cellId v (some f)).1.notifications = s.notifications + 1 := by
  have hcyc2 := hcyc
  unfold detachOldFormula at hcyc2
  refine ⟨?_, ?_, ?_, ?_, ?_, ?_⟩ <;>
    simp [set, hvalid, hne, hval, hcyc2, herr, detachOldFormula]
  intro c hc
  exact lookupCell_setCell_ne s.cells cellId _ c hc

/-- C1 (witness): the amended theorem applied to the concrete rejected
write `B1 := "=A1+1"` over a store where `A1` holds `"Hello"`. -/
theorem set_rejectedEvalPath_witness :
    (isValidCellId "B1" = true ∧ "=A1+1" ≠ "" ∧ validateFormula "=A1+1" = none ∧
      (checkCircularReference (detachOldFormula engineHello "B1") "B1"
        (parseFormula "=A1+1").dependencies).2 = none ∧
      optTruthy (evaluateFormula "=A1+1" (getRawValue engineHello.cells)).error = true) ∧
    (set engineHello 2 "B1" none (some "=A1+1")).1.version = engineHello.version :=
  ⟨⟨by decide, by decide, by decide, by decide, by decide⟩,
    (set_rejectedEvalPath engineHello 2 "B1" none "=A1+1" (by decide) (by decide)
      (by decide) (by decide) (by decide)).2.1⟩

/-- C2 (counterexample): in the diamond graph, `B1` is reachable from `A1`
along two dependent paths and appears TWICE in `getAllDependents`,
contradicting the claim that every cell appears at most once. -/
theorem getAllDependents_duplicate :
    getAllDependents graphDiamond "A1" = ["B1", "C1", "B1"] ∧
    ¬ (getAllDependents graphDiamond "A1").Nodup := by
  decide

/-- C2 (amended): `getAllDependents` recurses into each cell at most once —
the returned sequence is a permutation of the concatenated direct-dependent
lists of a duplicate-free list of visited cells — but a cell reachable via
several dependent edges is pushed once per edge, so it can appear more than
once in the output. -/
theorem getAllDependents_perm (g : Graph) (cell : String) :
    ∃ vs : List String, vs.Nodup ∧
      (getAllDependents g cell).Perm ((vs.map (getDependents g)).flatten) := by
  obtain ⟨newly, tail, heq, hperm, _, hnd⟩ :=
    collect_spec g (dependentsFuel g) cell [] []
  refine ⟨newly, by simpa using hnd (by simp), ?_⟩
  unfold getAllDependents
  rw [heq]
  simpa using hperm

/-- C3 (counterexample): an unknown function nested inside a larger
arithmetic expression does NOT yield `#NAME!`: the `#NAME!` text is
substituted into `1+#NAME!`, which fails the numeric character class and
yields `#VALUE!` instead. -/
theorem evaluateFormula_nestedUnknown :
    evaluateFormula "=1+UNKNOWN(A1)" (fun _ => none) =
      { value := .str "#VALUE!", error := some "#VALUE!", dependencies := ["A1"] } ∧
    (evaluateFormula "=1+UNKNOWN(A1)" (fun _ => none)).value ≠ .str "#NAME!" := by
  decide

/-- C3 (amended): an unrecognized function name yields the `#NAME!`
sentinel for the whole formula when its substituted result reaches the
front of the processed expression — in particular whenever the call is the
entire expression, as in `=UNKNOWN(A1:A3)`, for every cell-value accessor;
when the call sits behind other tokens the formula errors with `#VALUE!`
instead. -/
theorem evaluateFormula_unknownFunction (getCellValue : String → Option JSValue) :
    evaluateFormula "=UNKNOWN(A1:A3)" getCellValue =
      { value := .str "#NAME!", error := some "#NAME!",
        dependencies := ["A1", "A3", "A2"] } := by
  rfl

/-- C4: after `A1 := "=B1"` (accepted) and `B1 := "=A1"` (rejected as
circular, storing the diagnostic but registering no edges), the literal
write `B1 := 100` is accepted and recalculation makes `getRawValue "A1"`
resolve to `100`: the rejected cycle attempt leaves no poisoned edges. -/
theorem cycleRecovery :
    (set initEngine 1 "A1" none (some "=B1")).2 = true ∧
    (set (set initEngine 1 "A1" none (some "=B1")).1 2 "B1" none (some "=A1")).2 = false ∧
    (lookupCell (set (set initEngine 1 "A1" none (some "=B1")).1 2 "B1" none
        (some "=A1")).1.cells "B1").map (fun c => c.error) =
      some (some "Circular reference detected: B1 → A1 → B1") ∧
    getDependencies (set (set initEngine 1 "A1" none (some "=B1")).1 2 "B1" none
        (some "=A1")).1.graph "B1" = [] ∧
    (set (set (set initEngine 1 "A1" none (some "=B1")).1 2 "B1" none
        (some "=A1")).1 3 "B1" (some (.num 100)) none).2 = true ∧
    getRawValue (set (set (set initEngine 1 "A1" none (some "=B1")).1 2 "B1" none
        (some "=A1")).1 3 "B1" (some (.num 100)) none).1.cells "A1" =
      some (.num 100) := by
  decide

/-- C5: `checkCircularReference` simulates the candidate edges in a copy
and never mutates the real graph: both adjacency maps come back exactly as
they were, whether or not a cycle is reported. -/
theorem checkCircularReference_readOnly (g : Graph) (cell : String)
    (ds : List String) :
    (checkCircularReference g cell ds).1.dependencies = g.dependencies ∧
    (checkCircularReference g cell ds).1.dependents = g.dependents := by
  constructor <;>
    (simp only [checkCircularReference]; split <;> rfl)

/-- C6: for an identifier outside the A–J × 1–5 address space, both `set`
and `clearCell` return rejected and leave the entire engine state — cells,
version, timestamp, graph, and notification count — untouched. -/
theorem set_clearCell_invalidId (s : EngineState) (now : Nat) (cellId : String)
    (v : Option JSValue) (f : Option String)
    (h : isValidCellId cellId = false) :
    set s now cellId v f = (s, false) ∧ clearCell s now cellId = (s, false) := by
  constructor <;> simp [set, clearCell, h]

/-- C6 (witness): the invalid identifier `Z9` on a fresh engine. -/
theorem set_clearCell_invalidId_witness :
    isValidCellId "Z9" = false ∧
    (set initEngine 0 "Z9" none none = (initEngine, false) ∧
      clearCell initEngine 0 "Z9" = (initEngine, false)) :=
  ⟨by decide, set_clearCell_invalidId initEngine 0 "Z9" none none (by decide)⟩

/-- C7 (counterexample): after the validation-rejected write `A1 := "=K9"`
the live graph has no edges, but importing the exported snapshot rebuilds
the graph from the stored formula and reports different stats. -/
theorem exportImport_statsDiffer :
    graphStats engineRejectedRef.graph = (0, 0) ∧
    graphStats (importData initEngine (exportData engineRejectedRef)).graph = (1, 1) ∧
    graphStats (importData initEngine (exportData engineRejectedRef)).graph ≠
      graphStats engineRejectedRef.graph := by
  decide

/-- C7 (amended): re-importing an exported snapshot reproduces identical
raw values and formulas for every cell; the imported graph is the rebuild
from the stored formulas, so the dependency-graph stats agree with the
original exactly when the original live graph's stats already agree with
that rebuild (which fails when a stored formula was rejected at validation
or cycle-check and so never registered its edges). -/
theorem exportImport_roundTrip (s : EngineState) :
    (∀ cellId, getRawValue (importData initEngine (exportData s)).cells cellId =
      getRawValue s.cells cellId) ∧
    (∀ cellId, getFormula (importData initEngine (exportData s)).cells cellId =
      getFormula s.cells cellId) ∧
    (graphStats s.graph = graphStats (rebuildGraph s.cells) →
      graphStats (importData initEngine (exportData s)).graph = graphStats s.graph) := by
  refine ⟨fun _ => rfl, fun _ => rfl, fun h => ?_⟩
  exact h.symm

/-- C7 (witness): the round-trip theorem applied to an engine whose live
graph agrees with the rebuild (a literal plus an accepted formula). -/
theorem exportImport_roundTrip_witness :
    graphStats engineAccepted.graph = graphStats (rebuildGraph engineAccepted.cells) ∧
    graphStats (importData initEngine (exportData engineAccepted)).graph =
      graphStats engineAccepted.graph :=
  ⟨by decide, (exportImport_roundTrip engineAccepted).2.2 (by decide)⟩

/-- C8: for a stored cell with a (truthy) error message, `getRawValue`
returns the stored value when it is a string beginning with `#`, and the
error message string otherwise — never `undefined` and never the formula
text. -/
theorem getRawValue_errored (cells : Cells) (cellId : String) (cell : CellData)
    (e : String) (hc : lookupCell cells cellId = some cell)
    (he : cell.error = some e) (hne : e ≠ "") :
    getRawValue cells cellId =
      some (match cell.value with
        | some (.str s) => if strStartsWith s "#" then JSValue.str s else JSValue.str e
        | _ => JSValue.str e) ∧
    getRawValue cells cellId ≠ none := by
  have hmain : getRawValue cells cellId =
      some (match cell.value with
        | some (.str s) => if strStartsWith s "#" then JSValue.str s else JSValue.str e
        | _ => JSValue.str e) := by
    cases hv : cell.value with
    | none => simp [getRawValue, hc, he, hne, hv]
    | some w =>
      cases w with
      | num q => simp [getRawValue, hc, he, hne, hv]
      | str sv =>
        by_cases hs : strStartsWith sv "#" <;> simp [getRawValue, hc, he, hne, hv, hs]
  exact ⟨hmain, by simp [hmain]⟩

/-- C8 (witness): the rule applied to both errored cells of a concrete
store — a `#`-sentinel value (returned as-is) and a message-only error
(the message is returned). -/
theorem getRawValue_errored_witness :
    (lookupCell cellsErrored "A1" = some cellNumErr ∧ cellNumErr.error = some "#NUM!" ∧
      "#NUM!" ≠ "") ∧
    getRawValue cellsErrored "A1" =
      some (match cellNumErr.value with
        | some (.str s) => if strStartsWith s "#" then JSValue.str s else JSValue.str "#NUM!"
        | _ => JSValue.str "#NUM!") :=
  ⟨⟨by decide, by decide, by decide⟩,
    (getRawValue_errored cellsErrored "A1" cellNumErr "#NUM!" (by decide) (by decide)
      (by decide)).1⟩

/-- C9: every aggregate function applied to an empty flattened argument
list returns `0` — never an error value; in particular `=SUM(A1:A3)` over
entirely missing cells evaluates to `0` with no error. -/
theorem aggregates_emptyArgs :
    evaluateFunction "SUM" [] = .num 0 ∧
    evaluateFunction "AVERAGE" [] = .num 0 ∧
    evaluateFunction "MIN" [] = .num 0 ∧
    evaluateFunction "MAX" [] = .num 0 ∧
    evaluateFunction "COUNT" [] = .num 0 ∧
    evaluateFormula "=SUM(A1:A3)" (fun _ => none) =
      { value := .num 0, error := none, dependencies := ["A1", "A3", "A2"] } := by
  decide

/-- C10: `clearCell` on a valid identifier with no stored cell returns
`true` while leaving the whole engine state — cells, version, timestamp,
graph, and notification count — unchanged; no observer is notified. -/
theorem clearCell_missing (s : EngineState) (now : Nat) (cellId : String)
    (h1 : isValidCellId cellId = true) (h2 : lookupCell s.cells cellId = none) :
    clearCell s now cellId = (s, true) := by
  simp [clearCell, h1, h2]

/-- C10 (witness): clearing the absent cell `A1` of a fresh engine. -/
theorem clearCell_missing_witness :
    (isValidCellId "A1" = true ∧ lookupCell initEngine.cells "A1" = none) ∧
    clearCell initEngine 0 "A1" = (initEngine, true) :=
  ⟨⟨by decide, by decide⟩, clearCell_missing initEngine 0 "A1" (by decide) (by decide)⟩

end ZMs
